import Mathlib

/-!
Shallow embedding of the stacked-bar-chart component
(src/components/StackedBarChart.tsx and its earlier variant).

The data pipeline of the component is pure: it groups an in-memory record
array by date bucket, derives the first-appearance-ordered category list,
stacks the per-bucket values into cumulative low/high intervals (d3.stack
with the default none order and none offset), computes the value-domain
maximum from the topmost series and the overlay targets, builds the linear
y-scale and the band x-scale, and emits one rectangle per category and
bucket.

Records carry rational values: the component performs only field arithmetic
on finite numbers, so every finite JS number the claims exercise is modelled
by a rational.
-/

namespace StackedBar

/-- A raw input record: interface DataPoint with date, category, value. -/
structure DataPoint where
  date : String
  category : String
  value : ℚ
  deriving DecidableEq, Repr

/-- An overlay target: interface QuarterlyTarget with date, value. -/
structure QuarterlyTarget where
  date : String
  value : ℚ
  deriving DecidableEq, Repr

/-- First-appearance deduplication, the order produced by the JS idioms
`Array.from(new Set(xs))` (categories) and by the insertion order of
`d3.group` keys (bucket keys): each element is kept at the position of its
first occurrence. -/
def firstSeen : List String → List String
  | [] => []
  | x :: xs => x :: (firstSeen xs).filter (fun y => y ≠ x)

/-- `const categories = Array.from(new Set(data.map(d => d.category)))`. -/
def categories (data : List DataPoint) : List String :=
  firstSeen (data.map (fun d => d.category))

/-- The bucket-key order of `d3.group(data, d => d.date)`: keys in
first-appearance order. -/
def groupKeys (data : List DataPoint) : List String :=
  firstSeen (data.map (fun d => d.date))

/-- The records of one bucket of `d3.group(data, d => d.date)`, in input
order. -/
def bucketRecords (data : List DataPoint) (k : String) : List DataPoint :=
  data.filter (fun d => d.date = k)

/-- `Array.from(groupedData)`: the key/records entries of
`d3.group(data, d => d.date)` in first-appearance key order. -/
def groupedData (data : List DataPoint) : List (String × List DataPoint) :=
  (groupKeys data).map (fun k => (k, bucketRecords data k))

/-- The stack value accessor
`(d, key) => d[1].find(item => item.category === key)?.value || 0`:
the value of the first record of the bucket carrying the category, else 0
(a found value of 0 also yields 0 via `|| 0`, which coincides). -/
def stackValue (recs : List DataPoint) (key : String) : ℚ :=
  match recs.find? (fun item => item.category = key) with
  | some item => item.value
  | none => 0

/-- The baseline of series `i` at a bucket: the none offset of d3.stack makes
it the sum of the values of the first `i` category keys in that bucket. -/
def seriesLow (keys : List String) (i : ℕ) (recs : List DataPoint) : ℚ :=
  ((keys.take i).map (stackValue recs)).sum

/-- The top of series `i` at a bucket: baseline plus the own value of the
series. -/
def seriesHigh (keys : List String) (i : ℕ) (recs : List DataPoint) : ℚ :=
  ((keys.take (i + 1)).map (stackValue recs)).sum

/-- One point of a stacked series, a d3 SeriesPoint: the pair of d[0] and
d[1] together with d.data, the underlying key/records group entry. -/
structure SeriesPoint where
  low : ℚ
  high : ℚ
  data : String × List DataPoint
  deriving DecidableEq, Repr

/-- The point of series `i` over one group entry. -/
def seriesPointAt (keys : List String) (i : ℕ)
    (e : String × List DataPoint) : SeriesPoint :=
  ⟨seriesLow keys i e.2, seriesHigh keys i e.2, e⟩

/-- Series `i` of `stack(Array.from(groupedData))`: one point per bucket, in
bucket order. -/
def stackSeries (data : List DataPoint) (i : ℕ) : List SeriesPoint :=
  (groupedData data).map (seriesPointAt (categories data) i)

/-- `const stackedData = stack(Array.from(groupedData))`: one series per
category key, in category order, tagged with its key. -/
def stackedData (data : List DataPoint) : List (String × List SeriesPoint) :=
  (List.range (categories data).length).map
    (fun i => ((categories data).getD i "", stackSeries data i))

/-- `d3.max` over a list of rationals: `none` on the empty list, otherwise
the maximum (finite values only, so the NaN-skipping branch is vacuous). -/
def listMax : List ℚ → Option ℚ
  | [] => none
  | x :: xs =>
    match listMax xs with
    | none => some x
    | some m => some (max x m)

/-- `const maxDataValue = d3.max(stackedData[stackedData.length - 1], d => d[1]) || 0`.
When `stackedData` is empty, `stackedData[-1]` is `undefined` and `d3.max`
throws a TypeError (undefined is not iterable); `none` models that thrown
exception. Otherwise the result is the greatest top of the last series
(`|| 0` only replaces `undefined`, and 0 maps to 0 either way, which
`getD 0` matches). -/
def maxDataValue (data : List DataPoint) : Option ℚ :=
  match (stackedData data).getLast? with
  | none => none
  | some s => some ((listMax (s.2.map (fun p => p.high))).getD 0)

/-- `const maxTargetValue = d3.max(quarterlyTargets, d => d.value) || 0`. -/
def maxTargetValue (targets : List QuarterlyTarget) : ℚ :=
  (listMax (targets.map (fun t => t.value))).getD 0

/-- `const maxValue = Math.max(maxDataValue, maxTargetValue)`, propagating
the exception of `maxDataValue` on empty data. -/
def maxValue (data : List DataPoint) (targets : List QuarterlyTarget) :
    Option ℚ :=
  (maxDataValue data).map (fun mD => max mD (maxTargetValue targets))

/-- `d3.scaleLinear().domain([0, m]).range([ih, 0])` applied to `v`.
d3 normalises `v` to `(v - 0) / (m - 0)` when the domain is non-degenerate
and to the constant one half when `m = 0` (no division by zero occurs),
then interpolates the range: `ih + t * (0 - ih)`. -/
def yScale (m ih v : ℚ) : ℚ :=
  ih + (if m = 0 then 1 / 2 else v / m) * (0 - ih)

/-- The step of `d3.scaleBand().domain(keys).range([0, w]).padding(0.1)`:
`w / max(1, n - paddingInner + 2 * paddingOuter)` with both paddings 0.1. -/
def xScaleStep (n : ℕ) (w : ℚ) : ℚ :=
  w / max 1 ((n : ℚ) + 1 / 10)

/-- The first band start of the band scale:
`(w - step * (n - paddingInner)) * align` with align one half. -/
def xScaleStart (n : ℕ) (w : ℚ) : ℚ :=
  (w - xScaleStep n w * ((n : ℚ) - 1 / 10)) / 2

/-- `xScale.bandwidth() = step * (1 - paddingInner)`. -/
def bandwidth (n : ℕ) (w : ℚ) : ℚ :=
  xScaleStep n w * (9 / 10)

/-- `xScale(k) || 0`: the band start of a known key, and the fallback 0 the
renderer substitutes for the `undefined` of an unknown key. -/
def xScaleApply (keys : List String) (w : ℚ) (k : String) : ℚ :=
  match keys.indexOf? k with
  | some i => xScaleStart keys.length w + xScaleStep keys.length w * (i : ℚ)
  | none => 0

/-- The final geometry of one drawn rectangle, after its entrance animation:
`x = xScale(d.data[0]) || 0`, `y = yScale(d[1])`, `width = bandwidth`,
`height = yScale(d[0]) - yScale(d[1])`. -/
structure BarRect where
  x : ℚ
  y : ℚ
  w : ℚ
  h : ℚ
  deriving DecidableEq, Repr

/-- Everything one render pass draws that the claims inspect: the per-series
rectangles, the value-domain maximum, and the overlay points
`(xScale(t.date) + bandwidth / 2, yScale(t.value))`. -/
structure RenderOutput where
  bars : List (String × List BarRect)
  yDomainMax : ℚ
  targetPoints : List (ℚ × ℚ)
  deriving DecidableEq, Repr

/-- One full render pass over current data, targets, and inner dimensions.
It fails (returns `none`, the thrown TypeError) exactly where the source
does: `d3.max(stackedData[stackedData.length - 1], ...)` on an empty stack.
Every other step is total. -/
def renderPass (data : List DataPoint) (targets : List QuarterlyTarget)
    (iw ih : ℚ) : Option RenderOutput :=
  match maxValue data targets with
  | none => none
  | some m =>
    some ⟨(stackedData data).map (fun s =>
        (s.1, s.2.map (fun p =>
          ⟨xScaleApply (groupKeys data) iw p.data.1,
           yScale m ih p.high,
           bandwidth (groupKeys data).length iw,
           yScale m ih p.low - yScale m ih p.high⟩))),
      m,
      targets.map (fun t =>
        (xScaleApply (groupKeys data) iw t.date +
          bandwidth (groupKeys data).length iw / 2,
         yScale m ih t.value))⟩

/-- What the mouseover handler of a rectangle puts into the transient
tooltip. -/
structure TooltipContent where
  label : String
  amount : ℚ
  deriving DecidableEq, Repr

/-- The mouseover handler body: `const total = d[1] - d[0]` and
`const category = d.data[0]`, rendered as the tooltip text
`category + ": " + total`. Note that `d.data[0]` is the first component of
the group entry, the bucket key. -/
def mouseoverTooltip (p : SeriesPoint) : TooltipContent :=
  ⟨p.data.1, p.high - p.low⟩

/-- The legend click handler: it reads the current opacity style of the bars
of the clicked category and sets `opacity === '1' ? '0.2' : '1'`. -/
def legendToggle (opacity : String) : String :=
  if opacity = "1" then "0.2" else "1"

/-- One legend click as a transformation of the per-category opacity state:
only the clicked category changes, by `legendToggle`. -/
def toggleCategory (st : String → String) (c : String) : String → String :=
  fun c2 => if c2 = c then legendToggle (st c2) else st c2

/-- The sum, over the series of one bucket entry, of the interval heights
d[1] - d[0] produced by the stacking. -/
def heightsSum (data : List DataPoint) (e : String × List DataPoint) : ℚ :=
  ((List.range (categories data).length).map
    (fun i => (seriesPointAt (categories data) i e).high -
      (seriesPointAt (categories data) i e).low)).sum

/-- The input of Scenario A of the spec. -/
def scenarioAData : List DataPoint :=
  [⟨"2024-01", "A", 20⟩, ⟨"2024-01", "B", 30⟩]

/-- A bucket holding two records of the same category. -/
def dupBucketData : List DataPoint :=
  [⟨"2024-01", "A", 20⟩, ⟨"2024-01", "A", 30⟩]

/-- Two buckets, each missing one of the two categories. -/
def sparseData : List DataPoint :=
  [⟨"2024-01", "A", 20⟩, ⟨"2024-02", "B", 30⟩]

end StackedBar

namespace StackedBar

theorem mem_firstSeen {x : String} : ∀ {l : List String}, x ∈ firstSeen l ↔ x ∈ l
  | [] => by simp [firstSeen]
  | y :: ys => by
    by_cases hxy : x = y
    · subst hxy; simp [firstSeen]
    · simp [firstSeen, List.mem_filter, hxy, mem_firstSeen (l := ys)]

theorem nodup_firstSeen : ∀ (l : List String), (firstSeen l).Nodup
  | [] => by simp [firstSeen]
  | y :: ys => by
    rw [firstSeen]
    refine List.Nodup.cons ?_ ((nodup_firstSeen ys).filter _)
    intro hy
    have := (List.mem_filter.mp hy).2
    simp at this

theorem firstSeen_pairwise_indexOf :
    ∀ (l : List String), (firstSeen l).Pairwise
      (fun a b => List.indexOf a l < List.indexOf b l)
  | [] => by simp [firstSeen]
  | y :: ys => by
    rw [firstSeen]
    refine List.Pairwise.cons ?_ ?_
    · intro b hb
      have hbne : b ≠ y := by
        have := (List.mem_filter.mp hb).2
        simpa using this
      rw [List.indexOf_cons_self, List.indexOf_cons_ne _ (Ne.symm hbne)]
      exact Nat.succ_pos _
    · have hIH := firstSeen_pairwise_indexOf ys
      have hfil : ((firstSeen ys).filter (fun z => z ≠ y)).Pairwise
          (fun a b => List.indexOf a ys < List.indexOf b ys) :=
        hIH.sublist (List.filter_sublist _)
      refine hfil.imp_of_mem ?_
      intro a b ha hb hlt
      have hane : a ≠ y := by simpa using (List.mem_filter.mp ha).2
      have hbne : b ≠ y := by simpa using (List.mem_filter.mp hb).2
      rw [List.indexOf_cons_ne _ (Ne.symm hane),
        List.indexOf_cons_ne _ (Ne.symm hbne)]
      exact Nat.succ_lt_succ hlt

theorem firstSeen_eq_nil_iff {l : List String} : firstSeen l = [] ↔ l = [] := by
  cases l <;> simp [firstSeen]

theorem stackValue_nil (k : String) : stackValue [] k = 0 := rfl

theorem stackValue_cons (r : DataPoint) (recs : List DataPoint) (k : String) :
    stackValue (r :: recs) k =
      if r.category = k then r.value else stackValue recs k := by
  rw [stackValue, List.find?_cons]
  by_cases h : r.category = k <;> simp [h, stackValue]

theorem stackValue_eq_zero_of_not_mem {recs : List DataPoint} {k : String}
    (h : ∀ r ∈ recs, r.category ≠ k) : stackValue recs k = 0 := by
  rw [stackValue]
  have : recs.find? (fun item => item.category = k) = none := by
    rw [List.find?_eq_none]
    intro r hr
    simpa using h r hr
  rw [this]

theorem stackValue_eq_zero_of_all_zero {recs : List DataPoint}
    (hz : ∀ r ∈ recs, r.value = 0) (k : String) : stackValue recs k = 0 := by
  rw [stackValue]
  cases hfind : recs.find? (fun item => item.category = k) with
  | none => rfl
  | some r => exact hz r (List.mem_of_find?_eq_some hfind)

theorem sum_map_ite_of_mem {keys : List String} {c : String}
    (hnd : keys.Nodup) (hmem : c ∈ keys) (a : ℚ) (f : String → ℚ)
    (hf : f c = 0) :
    (keys.map (fun k => if c = k then a else f k)).sum = a + (keys.map f).sum := by
  induction keys with
  | nil => simp at hmem
  | cons y ys ih =>
    rcases List.mem_cons.mp hmem with hcy | hcys
    · subst hcy
      have hnots : c ∉ ys := (List.nodup_cons.mp hnd).1
      have : ys.map (fun k => if c = k then a else f k) = ys.map f := by
        refine List.map_congr_left ?_
        intro z hz
        have : c ≠ z := fun hcz => hnots (hcz ▸ hz)
        simp [this]
      simp [this, hf]
    · have hyc : c ≠ y := by
        rintro rfl
        exact (List.nodup_cons.mp hnd).1 hcys
      have := ih (List.nodup_cons.mp hnd).2 hcys
      simp [hyc, this]
      ring

theorem sum_stackValue {keys : List String} (hnd : keys.Nodup) :
    ∀ (recs : List DataPoint),
      (recs.map (fun r => r.category)).Nodup →
      (∀ r ∈ recs, r.category ∈ keys) →
      (keys.map (fun k => stackValue recs k)).sum = (recs.map (fun r => r.value)).sum
  | [], _, _ => by simp [stackValue_nil]
  | r :: rest, hrec, hsub => by
    have hmap : keys.map (fun k => stackValue (r :: rest) k) =
        keys.map (fun k => if r.category = k then r.value else stackValue rest k) :=
      List.map_congr_left (fun k _ => stackValue_cons r rest k)
    have hnotrest : ∀ r2 ∈ rest, r2.category ≠ r.category := by
      intro r2 hr2 hcat
      have : r.category ∈ rest.map (fun r => r.category) :=
        hcat ▸ List.mem_map_of_mem _ hr2
      exact (List.nodup_cons.mp (by simpa using hrec)).1 this
    have hzero : stackValue rest r.category = 0 :=
      stackValue_eq_zero_of_not_mem hnotrest
    rw [hmap, sum_map_ite_of_mem hnd (hsub r (List.mem_cons_self r rest)) r.value
      (fun k => stackValue rest k) hzero]
    have hrest := sum_stackValue hnd rest
      (by simpa using (List.nodup_cons.mp (by simpa using hrec)).2)
      (fun r2 hr2 => hsub r2 (List.mem_cons_of_mem r hr2))
    rw [hrest]
    simp

theorem sum_range_take_sub (f : String → ℚ) :
    ∀ (ks : List String),
      ((List.range ks.length).map
        (fun i => ((ks.take (i + 1)).map f).sum - ((ks.take i).map f).sum)).sum
      = (ks.map f).sum
  | [] => by simp
  | k :: ks => by
    rw [List.length_cons, List.range_succ_eq_map]
    simp only [List.map_cons, List.map_map, List.sum_cons]
    have h1 : ((List.range ks.length).map
        ((fun i => (((k :: ks).take (i + 1)).map f).sum -
          (((k :: ks).take i).map f).sum) ∘ Nat.succ)).sum
        = ((List.range ks.length).map
          (fun i => ((ks.take (i + 1)).map f).sum - ((ks.take i).map f).sum)).sum := by
      refine congrArg List.sum (List.map_congr_left ?_)
      intro i _
      simp [Function.comp, List.take_succ_cons]
    rw [h1, sum_range_take_sub f ks]
    simp

theorem heightsSum_eq (data : List DataPoint) (e : String × List DataPoint) :
    heightsSum data e = ((categories data).map (stackValue e.2)).sum := by
  rw [heightsSum]
  have := sum_range_take_sub (stackValue e.2) (categories data)
  simpa [seriesPointAt, seriesHigh, seriesLow] using this

theorem snd_eq_of_mem_groupedData {data : List DataPoint}
    {e : String × List DataPoint} (he : e ∈ groupedData data) :
    e.2 = bucketRecords data e.1 := by
  rw [groupedData] at he
  obtain ⟨k, _, hk⟩ := List.mem_map.mp he
  cases hk
  rfl

theorem mem_data_of_mem_groupedData {data : List DataPoint}
    {e : String × List DataPoint} (he : e ∈ groupedData data)
    {r : DataPoint} (hr : r ∈ e.2) : r ∈ data := by
  rw [snd_eq_of_mem_groupedData he, bucketRecords] at hr
  exact List.mem_of_mem_filter hr

theorem category_mem_categories {data : List DataPoint} {r : DataPoint}
    (hr : r ∈ data) : r.category ∈ categories data :=
  mem_firstSeen.mpr (List.mem_map_of_mem _ hr)

theorem categories_ne_nil_of_mem_groupedData {data : List DataPoint}
    {e : String × List DataPoint} (he : e ∈ groupedData data) :
    categories data ≠ [] := by
  rw [groupedData, groupKeys] at he
  intro hnil
  rw [categories, firstSeen_eq_nil_iff, List.map_eq_nil_iff] at hnil
  subst hnil
  simp [firstSeen] at he

end StackedBar

namespace StackedBar

theorem stackedData_ne_nil {data : List DataPoint} (h : data ≠ []) :
    stackedData data ≠ [] := by
  have hcat : categories data ≠ [] := by
    rw [categories, Ne, firstSeen_eq_nil_iff, List.map_eq_nil_iff]
    exact h
  rw [stackedData]
  intro hnil
  rw [List.map_eq_nil_iff, List.range_eq_nil] at hnil
  exact hcat (List.length_eq_zero.mp hnil)

theorem maxDataValue_isSome {data : List DataPoint} (h : data ≠ []) :
    ∃ mD, maxDataValue data = some mD := by
  obtain ⟨s, hs⟩ := Option.isSome_iff_exists.mp
    (List.getLast?_isSome.mpr (stackedData_ne_nil h))
  rw [maxDataValue, hs]
  exact ⟨_, rfl⟩

theorem maxValue_isSome {data : List DataPoint}
    (targets : List QuarterlyTarget) (h : data ≠ []) :
    ∃ m, maxValue data targets = some m := by
  obtain ⟨mD, hmD⟩ := maxDataValue_isSome h
  rw [maxValue, hmD]
  exact ⟨_, rfl⟩

/-- Claim C1 (amended): for every record array and every bucket in it whose
records carry pairwise distinct categories, the sum of the per-category
interval heights produced by the stacking equals the sum of the input values
of the records in that bucket, and the top of the interval of the topmost
category equals that bucket total. -/
theorem stack_sum_invariant (data : List DataPoint)
    (e : String × List DataPoint) (he : e ∈ groupedData data)
    (hdup : (e.2.map (fun r => r.category)).Nodup) :
    heightsSum data e = (e.2.map (fun r => r.value)).sum ∧
    (seriesPointAt (categories data) ((categories data).length - 1) e).high
      = (e.2.map (fun r => r.value)).sum := by
  have hsub : ∀ r ∈ e.2, r.category ∈ categories data :=
    fun r hr => category_mem_categories (mem_data_of_mem_groupedData he hr)
  have hsum : ((categories data).map (fun k => stackValue e.2 k)).sum
      = (e.2.map (fun r => r.value)).sum :=
    sum_stackValue (nodup_firstSeen _) e.2 hdup hsub
  constructor
  · rw [heightsSum_eq]
    exact hsum
  · have hne := categories_ne_nil_of_mem_groupedData he
    have hlen : 0 < (categories data).length := List.length_pos.mpr hne
    rw [seriesPointAt]
    show seriesHigh (categories data) ((categories data).length - 1) e.2 = _
    rw [seriesHigh, Nat.sub_add_cancel hlen, List.take_length]
    exact hsum

/-- Claim C1, counterexample: in a bucket holding two records of the same
category (values 20 and 30), the interval heights sum to 20 while the input
values sum to 50, so the invariant fails as stated for every record array. -/
theorem stack_sum_invariant_cex :
    ¬ (∀ (data : List DataPoint) (e : String × List DataPoint),
        e ∈ groupedData data →
        heightsSum data e = (e.2.map (fun r => r.value)).sum) := by
  intro h
  have hmem : ("2024-01", dupBucketData) ∈ groupedData dupBucketData := by
    simp +decide [groupedData, groupKeys, firstSeen, bucketRecords, dupBucketData]
  have := h dupBucketData ("2024-01", dupBucketData) hmem
  rw [heightsSum_eq] at this
  simp +decide [categories, firstSeen, stackValue, dupBucketData] at this

/-- Claim C1, witness: the amended invariant instantiated at the Scenario A
input, whose single bucket is duplicate-free and sums to 50. -/
theorem stack_sum_invariant_witness :
    (⟨"2024-01", scenarioAData⟩ : String × List DataPoint)
      ∈ groupedData scenarioAData ∧
    heightsSum scenarioAData ("2024-01", scenarioAData) = 50 := by
  have hmem : (⟨"2024-01", scenarioAData⟩ : String × List DataPoint)
      ∈ groupedData scenarioAData := by
    simp +decide [groupedData, groupKeys, firstSeen, bucketRecords, scenarioAData]
  have hdup : ((scenarioAData).map (fun r => r.category)).Nodup := by
    simp +decide [scenarioAData]
  refine ⟨hmem, ?_⟩
  rw [(stack_sum_invariant scenarioAData ("2024-01", scenarioAData) hmem hdup).1]
  norm_num [scenarioAData]

/-- Claim C2: aggregating the Scenario A records yields, for bucket 2024-01,
category A with interval 0 to 20 and category B with interval 20 to 50, and
the value-domain maximum computed from the stacks is 50. -/
theorem scenarioA_stack :
    stackedData scenarioAData =
      [("A", [⟨0, 20, ("2024-01", scenarioAData)⟩]),
       ("B", [⟨20, 50, ("2024-01", scenarioAData)⟩])] ∧
    maxDataValue scenarioAData = some 50 := by
  constructor
  · simp +decide [stackedData, stackSeries, seriesPointAt, seriesLow, seriesHigh,
      categories, groupKeys, groupedData, bucketRecords, firstSeen, stackValue,
      scenarioAData, List.range_succ]
    norm_num
  · simp +decide [maxDataValue, stackedData, stackSeries, seriesPointAt, seriesLow,
      seriesHigh, categories, groupKeys, groupedData, bucketRecords, firstSeen,
      stackValue, listMax, scenarioAData, List.range_succ]
    norm_num

/-- Claim C3: for every record array, the derived category list and the
derived bucket-key list are duplicate-free, hold exactly the values occurring
in the input, and are ordered by the index of the first appearance of each
value in the input sequence. -/
theorem order_stability (data : List DataPoint) :
    ((categories data).Nodup ∧
      (∀ c, c ∈ categories data ↔ c ∈ data.map (fun r => r.category)) ∧
      (categories data).Pairwise
        (fun a b => List.indexOf a (data.map (fun r => r.category)) <
          List.indexOf b (data.map (fun r => r.category)))) ∧
    ((groupKeys data).Nodup ∧
      (∀ k, k ∈ groupKeys data ↔ k ∈ data.map (fun r => r.date)) ∧
      (groupKeys data).Pairwise
        (fun a b => List.indexOf a (data.map (fun r => r.date)) <
          List.indexOf b (data.map (fun r => r.date)))) :=
  ⟨⟨nodup_firstSeen _, fun _ => mem_firstSeen, firstSeen_pairwise_indexOf _⟩,
   ⟨nodup_firstSeen _, fun _ => mem_firstSeen, firstSeen_pairwise_indexOf _⟩⟩

end StackedBar

namespace StackedBar

/-- Claim C4: the linear value scale maps 0 to innerHeight and the domain
maximum to 0, and that maximum is `Math.max(maxDataValue, maxTargetValue)`;
in particular (Scenario C), with the Scenario A stack (maximum 50) and an
overlay target replaced by 80, the recomputed domain maximum is 80. -/
theorem value_domain_scale (data : List DataPoint)
    (targets : List QuarterlyTarget) (m ih : ℚ)
    (h : maxValue data targets = some m) (hm : m ≠ 0) :
    yScale m ih 0 = ih ∧ yScale m ih m = 0 ∧
    (∃ mD, maxDataValue data = some mD ∧ m = max mD (maxTargetValue targets)) ∧
    maxValue scenarioAData [⟨"2024-01", 80⟩] = some 80 := by
  refine ⟨?_, ?_, ?_, ?_⟩
  · simp [yScale, hm]
  · simp [yScale, hm, div_self hm]
  · rw [maxValue] at h
    cases hD : maxDataValue data with
    | none => rw [hD] at h; simp at h
    | some mD =>
      rw [hD] at h
      simp at h
      exact ⟨mD, rfl, h.symm⟩
  · simp +decide [maxValue, maxDataValue, maxTargetValue, stackedData, stackSeries,
      seriesPointAt, seriesLow, seriesHigh, categories, groupKeys, groupedData,
      bucketRecords, firstSeen, stackValue, listMax, scenarioAData, List.range_succ]
    norm_num

/-- Claim C4, witness: the Scenario C instance itself, with innerHeight 350:
domain maximum 80, yScale sends 0 to 350 and 80 to 0. -/
theorem value_domain_scale_witness :
    yScale 80 350 0 = 350 ∧ yScale 80 350 80 = 0 ∧
    (∃ mD, maxDataValue scenarioAData = some mD ∧
      (80 : ℚ) = max mD (maxTargetValue [⟨"2024-01", 80⟩])) ∧
    maxValue scenarioAData [⟨"2024-01", 80⟩] = some 80 := by
  refine value_domain_scale scenarioAData [⟨"2024-01", 80⟩] 80 350 ?_ ?_
  · simp +decide [maxValue, maxDataValue, maxTargetValue, stackedData, stackSeries,
      seriesPointAt, seriesLow, seriesHigh, categories, groupKeys, groupedData,
      bucketRecords, firstSeen, stackValue, listMax, scenarioAData, List.range_succ]
    norm_num
  · norm_num

/-- Claim C5: the mouseover handler computes the own value of the segment as
top minus bottom, but the label it displays is `d.data[0]`, the bucket key,
not the category label: on the Scenario A rectangle of series A (category
list entry 0) it shows 2024-01, not A. The handler binds this field to a
variable named category, so the spec states the intent and the code grabs
the wrong field. -/
theorem tooltip_label_is_bucket_key :
    (mouseoverTooltip (seriesPointAt (categories scenarioAData) 0
        ("2024-01", scenarioAData))).amount = 20 ∧
    (mouseoverTooltip (seriesPointAt (categories scenarioAData) 0
        ("2024-01", scenarioAData))).label = "2024-01" ∧
    (categories scenarioAData).getD 0 "" = "A" ∧
    (mouseoverTooltip (seriesPointAt (categories scenarioAData) 0
        ("2024-01", scenarioAData))).label ≠ (categories scenarioAData).getD 0 "" := by
  refine ⟨?_, ?_, ?_, ?_⟩
  · simp +decide [mouseoverTooltip, seriesPointAt, seriesLow, seriesHigh,
      categories, firstSeen, stackValue, scenarioAData]
  · rfl
  · rfl
  · simp +decide [mouseoverTooltip, categories, firstSeen, scenarioAData]

end StackedBar

namespace StackedBar

/-- Claim C6: for every non-empty record array whose values are all zero
(and any overlay targets), the render pass computes its scales and bar
geometry without failing — the degenerate zero domain takes the constant
branch of the d3 normaliser instead of dividing — and every rendered bar
has height exactly 0. -/
theorem zero_domain_safety (data : List DataPoint)
    (targets : List QuarterlyTarget) (iw ih : ℚ)
    (hne : data ≠ []) (hz : ∀ r ∈ data, r.value = 0) :
    ∃ out, renderPass data targets iw ih = some out ∧
      ∀ s ∈ out.bars, ∀ b ∈ s.2, b.h = 0 := by
  obtain ⟨m, hm⟩ := maxValue_isSome targets hne
  rw [renderPass, hm]
  refine ⟨_, rfl, ?_⟩
  intro s hs b hb
  obtain ⟨s0, hs0, rfl⟩ := List.mem_map.mp hs
  obtain ⟨p, hp, rfl⟩ := List.mem_map.mp hb
  obtain ⟨i, _, hser⟩ : ∃ i, i ∈ List.range (categories data).length ∧
      ((categories data).getD i "", stackSeries data i) = s0 := by
    simpa [stackedData, List.mem_map] using hs0
  rw [← hser] at hp
  obtain ⟨e, he, rfl⟩ := List.mem_map.mp hp
  have hzrec : ∀ r ∈ e.2, r.value = 0 :=
    fun r hr => hz r (mem_data_of_mem_groupedData he hr)
  have hlow : seriesLow (categories data) i e.2 = 0 := by
    refine List.sum_eq_zero ?_
    intro x hx
    obtain ⟨k, _, rfl⟩ := List.mem_map.mp hx
    exact stackValue_eq_zero_of_all_zero hzrec k
  have hhigh : seriesHigh (categories data) i e.2 = 0 := by
    refine List.sum_eq_zero ?_
    intro x hx
    obtain ⟨k, _, rfl⟩ := List.mem_map.mp hx
    exact stackValue_eq_zero_of_all_zero hzrec k
  simp [seriesPointAt, hlow, hhigh]

/-- Claim C6, witness: one all-zero record with default overlay targets and
the default inner dimensions renders zero-height bars. -/
theorem zero_domain_safety_witness :
    ∃ out, renderPass [⟨"2024-01", "A", 0⟩] [⟨"2024-01", 50⟩] 640 350 = some out ∧
      ∀ s ∈ out.bars, ∀ b ∈ s.2, b.h = 0 :=
  zero_domain_safety [⟨"2024-01", "A", 0⟩] [⟨"2024-01", 50⟩] 640 350
    (by simp) (by intro r hr; simp at hr; rw [hr])

/-- Claim C7, counterexample: on the empty record array the scale
computation throws — `stackedData[stackedData.length - 1]` is `undefined`
and `d3.max` raises a TypeError — so the render pass aborts instead of
completing, refuting the claim for every input array. -/
theorem render_empty_data_fails :
    renderPass [] [⟨"2024-01", 50⟩] 640 350 = none := rfl

/-- Claim C7 (amended): for every non-empty input record array, the
stacking, scale computation, and drawing of a render pass complete fully
without raising; on the empty array the value-maximum computation raises
and the aborted pass draws nothing. -/
theorem render_completes_nonempty (data : List DataPoint)
    (targets : List QuarterlyTarget) (iw ih : ℚ) (hne : data ≠ []) :
    (renderPass data targets iw ih).isSome := by
  obtain ⟨m, hm⟩ := maxValue_isSome targets hne
  rw [renderPass, hm]
  rfl

/-- Claim C7, witness: the Scenario A input renders successfully. -/
theorem render_completes_nonempty_witness :
    (renderPass scenarioAData [⟨"2024-01", 50⟩] 640 350).isSome :=
  render_completes_nonempty scenarioAData [⟨"2024-01", 50⟩] 640 350 (by simp [scenarioAData])

/-- Claim C8: two consecutive legend clicks on the same category restore the
opacity of its bars exactly, from either starting opacity 1 or 0.2, and
leave every other category untouched. -/
theorem legend_toggle_idempotent (st : String → String) (c : String)
    (h : st c = "1" ∨ st c = "0.2") :
    toggleCategory (toggleCategory st c) c c = st c ∧
    ∀ c2, c2 ≠ c → toggleCategory (toggleCategory st c) c c2 = st c2 := by
  constructor
  · rcases h with h1 | h2
    · simp [toggleCategory, legendToggle, h1]
    · simp +decide [toggleCategory, legendToggle, h2]
  · intro c2 hc2
    simp [toggleCategory, hc2]

/-- Claim C8, witness: starting fully opaque, category A returns to opacity
1 after two clicks and category B is unaffected. -/
theorem legend_toggle_idempotent_witness :
    toggleCategory (toggleCategory (fun _ => "1") "A") "A" "A" = "1" ∧
    toggleCategory (toggleCategory (fun _ => "1") "A") "A" "B" = "1" := by
  have h := legend_toggle_idempotent (fun _ => "1") "A" (Or.inl rfl)
  exact ⟨h.1, h.2 "B" (by decide)⟩

/-- Claim C9: for every record array, every bucket of it, and every derived
category, if no record of the bucket carries that category then the stack
value accessor yields 0 for the pair; the accessor is total, so no error
arises. -/
theorem missing_pair_default (data : List DataPoint)
    (e : String × List DataPoint) (he : e ∈ groupedData data)
    (k : String) (hk : k ∈ categories data)
    (hnone : ∀ r ∈ e.2, r.category ≠ k) :
    stackValue e.2 k = 0 :=
  stackValue_eq_zero_of_not_mem hnone

/-- Claim C9, witness: bucket 2024-01 of the sparse input holds no record of
category B, and its stack value for B is 0. -/
theorem missing_pair_default_witness :
    (⟨"2024-01", [⟨"2024-01", "A", 20⟩]⟩ : String × List DataPoint)
      ∈ groupedData sparseData ∧
    "B" ∈ categories sparseData ∧
    stackValue [⟨"2024-01", "A", 20⟩] "B" = 0 := by
  have hmem : (⟨"2024-01", [⟨"2024-01", "A", 20⟩]⟩ : String × List DataPoint)
      ∈ groupedData sparseData := by
    simp +decide [groupedData, groupKeys, firstSeen, bucketRecords, sparseData]
  have hk : "B" ∈ categories sparseData := by
    simp +decide [categories, firstSeen, sparseData]
  refine ⟨hmem, hk, ?_⟩
  exact missing_pair_default sparseData ⟨"2024-01", [⟨"2024-01", "A", 20⟩]⟩ hmem "B" hk
    (by intro r hr; simp at hr; rw [hr]; decide)

/-- Claim C10: the stack value accessor reads the first record of the bucket
carrying the requested category: whatever records follow it — including
later duplicates of the same category — do not contribute. -/
theorem duplicate_first_record_wins (pre post : List DataPoint)
    (r : DataPoint) (k : String)
    (hpre : ∀ r2 ∈ pre, r2.category ≠ k) (hr : r.category = k) :
    stackValue (pre ++ r :: post) k = r.value := by
  induction pre with
  | nil => simp [stackValue_cons, hr]
  | cons p ps ih =>
    rw [List.cons_append, stackValue_cons]
    have hp : p.category ≠ k := hpre p (List.mem_cons_self p ps)
    rw [if_neg hp]
    exact ih (fun r2 h2 => hpre r2 (List.mem_cons_of_mem p h2))

/-- Claim C10, witness: with two category-A records of values 20 and 30 in
one bucket, the accessor yields 20, the value of the first. -/
theorem duplicate_first_record_wins_witness :
    stackValue dupBucketData "A" = 20 := by
  have := duplicate_first_record_wins [] [⟨"2024-01", "A", 30⟩]
    ⟨"2024-01", "A", 20⟩ "A" (by intro r2 h2; simp at h2) rfl
  simpa [dupBucketData] using this

end StackedBar
